import Mathlib

/-!
Verification of the presence registry and signaling relay of `src/index.js`.

The server keeps five shared mutable structures:
  `socketsByUser : Map userId → socket.id`, `userBySocket : Map socket.id → userId`,
  `typingUsers : Set userId`, `messageReactions : Object messageId → emoji[]`,
  `lastSeen : Object userId → timestamp`.
JavaScript `Map`s are embedded as association lists whose `set` updates an
existing key in place and otherwise appends, whose `get` returns the first
(and, for lists built by `set`/`delete`, only) binding, and whose `delete`
removes the binding; `Set` is a duplicate-free list in insertion order.
Each socket event handler becomes a function from the server state (plus the
handler's payload) to the new state paired with the list of emissions it
performs, where an emission records its destination (`io.emit` = all,
`io.to(sid)` = that socket only, `socket.broadcast` = all but the sender).
External collaborators (the Mongo store) enter as explicit parameters:
`sendMessage` takes the outcome of `message.save()`, the delete route takes
the current message store.
-/

/-- JavaScript `Map.prototype.set`: update the binding in place when the key
exists (keeping its position), otherwise append the new binding. -/
def mapSet {α β : Type} [DecidableEq α] : List (α × β) → α → β → List (α × β)
  | [], k, v => [(k, v)]
  | (k', v') :: rest, k, v =>
      if k' = k then (k, v) :: rest else (k', v') :: mapSet rest k v

/-- JavaScript `Map.prototype.get`: the value of the first binding of the key,
`none` when absent. -/
def mapGet {α β : Type} [DecidableEq α] : List (α × β) → α → Option β
  | [], _ => none
  | (k', v') :: rest, k => if k' = k then some v' else mapGet rest k

/-- JavaScript `Map.prototype.delete`: remove the (first) binding of the key. -/
def mapDelete {α β : Type} [DecidableEq α] : List (α × β) → α → List (α × β)
  | [], _ => []
  | (k', v') :: rest, k => if k' = k then rest else (k', v') :: mapDelete rest k

/-- JavaScript `Set.prototype.add`: append unless already present. -/
def setAdd (l : List String) (x : String) : List String :=
  if x ∈ l then l else l ++ [x]

/-- JavaScript `Set.prototype.delete`: remove the element. -/
def setDelete (l : List String) (x : String) : List String :=
  l.erase x

/-- JavaScript truthiness of a possibly-absent string (`userId && …`,
`… || null`): the empty string and absence are both falsy. -/
def jsTruthy (o : Option String) : Option String :=
  match o with
  | some u => if u = "" then none else some u
  | none => none

/-- A chat message as returned by `message.save()`: the store has assigned an
id (Mongo `_id`) and a creation timestamp to the client-supplied fields. -/
structure SavedMessage where
  id : String
  text : String
  sender : String
  image : Option String
  createdAt : Nat
deriving DecidableEq, Repr

/-- The client-supplied body of a `sendMessage` event. -/
structure MsgIn where
  text : String
  sender : String
  image : Option String
deriving DecidableEq, Repr

/-- Destination of one `emit` call. -/
inductive Dest where
  | all
  | toSocket (sid : String)
  | broadcastExcept (sid : String)
deriving DecidableEq, Repr

/-- Payload of one `emit` call, one constructor per payload shape the server
sends. -/
inductive Payload where
  | onlineCount (n : Nat)
  | lastSeenMap (m : List (String × Nat))
  | typingList (users : List String)
  | userStatus (text : String)
  | chatMessage (msg : SavedMessage)
  | readReceipt (messageId userId : String)
  | reactionAdded (messageId emoji : String)
  | incomingCall (fro offer : String)
  | userOffline (toU : String)
  | callAccepted (fro answer : String)
  | iceCand (candidate : String) (fro : Option String)
  | callEnded (fro : String)
  | messageDeleted (id : String)
deriving DecidableEq, Repr

/-- One `emit` call: destination, event name, payload. -/
structure Emission where
  dest : Dest
  event : String
  payload : Payload
deriving DecidableEq, Repr

/-- Whether an emission is delivered to the socket `sid`. -/
def Emission.reaches (em : Emission) (sid : String) : Bool :=
  match em.dest with
  | .all => true
  | .toSocket t => t = sid
  | .broadcastExcept t => t ≠ sid

/-- The server's shared mutable state (`src/index.js` lines 69-73). -/
structure ServerState where
  socketsByUser : List (String × String)
  userBySocket : List (String × String)
  typingUsers : List String
  messageReactions : List (String × List String)
  lastSeen : List (String × Nat)
deriving DecidableEq, Repr

/-- The state at process start: every structure empty. -/
def initialState : ServerState :=
  ⟨[], [], [], [], []⟩

/-- The `broadcastOnlineInfo` helper: emit the online count
(`socketsByUser.size`) and the last-seen map to all sockets. -/
def broadcastOnlineInfo (s : ServerState) : List Emission :=
  [⟨.all, "updateOnlineUsers", .onlineCount s.socketsByUser.length⟩,
   ⟨.all, "lastSeen", .lastSeenMap s.lastSeen⟩]

/-- The `register` handler: guard a falsy userId, bind the two maps, stamp
last-seen, then broadcast online info.  (The connect email is an external
notification sink and carries no state.) -/
def register (s : ServerState) (sid userId : String) (now : Nat) :
    ServerState × List Emission :=
  if userId = "" then (s, [])
  else
    let s1 : ServerState :=
      { s with
        socketsByUser := mapSet s.socketsByUser userId sid
        userBySocket := mapSet s.userBySocket sid userId
        lastSeen := mapSet s.lastSeen userId now }
    (s1, broadcastOnlineInfo s1)

/-- The `sendMessage` handler: build the message from the payload, `await`
its save, and on success broadcast the saved form; a save failure is only
logged (`console.error`), nothing is emitted.  The external store is the
`save` parameter. -/
def sendMessage (s : ServerState) (msg : MsgIn)
    (save : MsgIn → Option SavedMessage) : ServerState × List Emission :=
  match save msg with
  | some saved => (s, [⟨.all, "message", .chatMessage saved⟩])
  | none => (s, [])

/-- The `typing` handler: guard falsy, add to the typing set, broadcast the
full set. -/
def typing (s : ServerState) (userId : String) : ServerState × List Emission :=
  if userId = "" then (s, [])
  else
    let s1 := { s with typingUsers := setAdd s.typingUsers userId }
    (s1, [⟨.all, "typing", .typingList s1.typingUsers⟩])

/-- The `stopTyping` handler: guard falsy, remove from the typing set,
broadcast the full set. -/
def stopTyping (s : ServerState) (userId : String) : ServerState × List Emission :=
  if userId = "" then (s, [])
  else
    let s1 := { s with typingUsers := setDelete s.typingUsers userId }
    (s1, [⟨.all, "typing", .typingList s1.typingUsers⟩])

/-- The `messageReaction` handler: create the reaction array if absent, push
the emoji, broadcast the single added reaction. -/
def messageReaction (s : ServerState) (messageId emoji : String) :
    ServerState × List Emission :=
  let cur := (mapGet s.messageReactions messageId).getD []
  ({ s with messageReactions := mapSet s.messageReactions messageId (cur ++ [emoji]) },
   [⟨.all, "messageReaction", .reactionAdded messageId emoji⟩])

/-- The `call-user` handler: forward the offer to the target's socket when
registered, otherwise tell the sender the target is offline. -/
def callUser (s : ServerState) (sid toU fro offer : String) :
    ServerState × List Emission :=
  match mapGet s.socketsByUser toU with
  | some target => (s, [⟨.toSocket target, "incoming-call", .incomingCall fro offer⟩])
  | none => (s, [⟨.toSocket sid, "user-offline", .userOffline toU⟩])

/-- The `accept-call` handler: forward the answer when the target is
registered; nothing is emitted otherwise. -/
def acceptCall (s : ServerState) (_sid toU fro answer : String) :
    ServerState × List Emission :=
  match mapGet s.socketsByUser toU with
  | some target => (s, [⟨.toSocket target, "call-accepted", .callAccepted fro answer⟩])
  | none => (s, [])

/-- The `ice-candidate` handler: the inbound payload carries only `to` and
`candidate`; the `from` field of the forwarded message is derived as
`userBySocket.get(socket.id) || null`.  Nothing is emitted when the target
is not registered. -/
def iceCandidate (s : ServerState) (sid toU candidate : String) :
    ServerState × List Emission :=
  match mapGet s.socketsByUser toU with
  | some target =>
      (s, [⟨.toSocket target, "ice-candidate",
            .iceCand candidate (jsTruthy (mapGet s.userBySocket sid))⟩])
  | none => (s, [])

/-- The `end-call` handler: forward when the target is registered; nothing is
emitted otherwise. -/
def endCall (s : ServerState) (_sid toU fro : String) :
    ServerState × List Emission :=
  match mapGet s.socketsByUser toU with
  | some target => (s, [⟨.toSocket target, "call-ended", .callEnded fro⟩])
  | none => (s, [])

/-- The `disconnect` handler: look up the departing userId via
`userBySocket`; if truthy, remove both map entries and stamp last-seen, and
remove the userId from the typing set if present; then broadcast online info
and a generic status to the other sockets.  (The disconnect email is an
external notification sink.) -/
def disconnect (s : ServerState) (sid : String) (now : Nat) :
    ServerState × List Emission :=
  let s2 :=
    match jsTruthy (mapGet s.userBySocket sid) with
    | some u =>
        let s1 : ServerState :=
          { s with
            socketsByUser := mapDelete s.socketsByUser u
            userBySocket := mapDelete s.userBySocket sid
            lastSeen := mapSet s.lastSeen u now }
        if u ∈ s1.typingUsers then
          { s1 with typingUsers := setDelete s1.typingUsers u }
        else s1
    | none => s
  (s2, broadcastOnlineInfo s2 ++
       [⟨.broadcastExcept sid, "userStatus", .userStatus "A user disconnected"⟩])

/-- One entry of the Mongo message store is removed by
`Message.findByIdAndDelete(id)`; ids are unique so removing the first match
is `findByIdAndDelete`.  When no message has the id the store is unchanged
and the call resolves to `null` without throwing. -/
def removeById (store : List SavedMessage) (id : String) : List SavedMessage :=
  match store with
  | [] => []
  | m :: rest => if m.id = id then rest else m :: removeById rest id

/-- The `DELETE /messages/:id` route: await the store delete, broadcast the
deletion notice, answer 204 — unconditionally, also when the store found no
such message. -/
def deleteMessageRoute (store : List SavedMessage) (id : String) :
    List SavedMessage × List Emission × Nat :=
  (removeById store id, [⟨.all, "deleteMessage", .messageDeleted id⟩], 204)

/-- Registry-mutating events for presence traces: `register` and the
transport-level `disconnect`. -/
inductive RegEvent where
  | reg (sid userId : String) (now : Nat)
  | disc (sid : String) (now : Nat)
deriving DecidableEq, Repr

/-- Dispatch one registry event to its handler. -/
def stepReg (s : ServerState) : RegEvent → ServerState × List Emission
  | .reg sid userId now => register s sid userId now
  | .disc sid now => disconnect s sid now

/-- Run a sequence of registry events, recording after each step the
post-state together with the emissions of that step. -/
def runTrace (s : ServerState) : List RegEvent → List (ServerState × List Emission)
  | [] => []
  | e :: rest =>
      let p := stepReg s e
      p :: runTrace p.1 rest

/-- The number of distinct userIds currently bound in the registry. -/
def distinctBoundUsers (s : ServerState) : Nat :=
  ((s.socketsByUser.map Prod.fst).dedup).length

/-- Registry well-formedness: no userId occurs twice as a key of
`socketsByUser`.  Holds at `initialState` and is preserved by every handler,
since JavaScript `Map`s cannot hold duplicate keys. -/
def regInv (s : ServerState) : Prop :=
  (s.socketsByUser.map Prod.fst).Nodup

theorem mapGet_mapSet_self {α β : Type} [DecidableEq α] (m : List (α × β)) (k : α) (v : β) :
    mapGet (mapSet m k v) k = some v := by
  induction m with
  | nil => simp [mapSet, mapGet]
  | cons hd tl ih =>
      obtain ⟨a, b⟩ := hd
      by_cases h : a = k
      · simp [mapSet, mapGet, h]
      · simp [mapSet, mapGet, h, ih]

theorem mapGet_mapSet_ne {α β : Type} [DecidableEq α] (m : List (α × β)) (k x : α) (v : β)
    (h : x ≠ k) : mapGet (mapSet m k v) x = mapGet m x := by
  induction m with
  | nil => simp [mapSet, mapGet, Ne.symm h]
  | cons hd tl ih =>
      obtain ⟨a, b⟩ := hd
      by_cases ha : a = k
      · subst ha
        simp [mapSet, mapGet, Ne.symm h]
      · simp [mapSet, mapGet, ha, ih]

theorem mem_keys_mapSet {α β : Type} [DecidableEq α] (m : List (α × β)) (k x : α) (v : β) :
    x ∈ (mapSet m k v).map Prod.fst ↔ x ∈ m.map Prod.fst ∨ x = k := by
  induction m with
  | nil => simp [mapSet]
  | cons hd tl ih =>
      obtain ⟨a, b⟩ := hd
      by_cases ha : a = k
      · subst ha
        simp [mapSet]
        tauto
      · simp [mapSet, ha, ih]
        tauto

theorem nodup_keys_mapSet {α β : Type} [DecidableEq α] (m : List (α × β)) (k : α) (v : β)
    (h : (m.map Prod.fst).Nodup) : ((mapSet m k v).map Prod.fst).Nodup := by
  induction m with
  | nil => simp [mapSet]
  | cons hd tl ih =>
      obtain ⟨a, b⟩ := hd
      simp only [List.map_cons, List.nodup_cons] at h
      by_cases ha : a = k
      · subst ha
        simpa [mapSet] using h
      · have hih := ih h.2
        have hna : a ∉ (mapSet tl k v).map Prod.fst := by
          rw [mem_keys_mapSet]
          push_neg
          exact ⟨h.1, ha⟩
        simp only [mapSet, ha, if_false, List.map_cons, List.nodup_cons]
        exact ⟨fun hmem => hna hmem, hih⟩

theorem mapDelete_sublist {α β : Type} [DecidableEq α] (m : List (α × β)) (k : α) :
    (mapDelete m k).Sublist m := by
  induction m with
  | nil => simp [mapDelete]
  | cons hd tl ih =>
      obtain ⟨a, b⟩ := hd
      by_cases ha : a = k
      · simp [mapDelete, ha]
      · simp only [mapDelete, ha, if_false]
        exact ih.cons₂ (a, b)

theorem nodup_keys_mapDelete {α β : Type} [DecidableEq α] (m : List (α × β)) (k : α)
    (h : (m.map Prod.fst).Nodup) : ((mapDelete m k).map Prod.fst).Nodup :=
  ((mapDelete_sublist m k).map Prod.fst).nodup h

theorem mapGet_eq_none_of_not_mem {α β : Type} [DecidableEq α] (m : List (α × β)) (k : α)
    (h : k ∉ m.map Prod.fst) : mapGet m k = none := by
  induction m with
  | nil => rfl
  | cons hd tl ih =>
      obtain ⟨a, b⟩ := hd
      simp only [List.map_cons, List.mem_cons] at h
      push_neg at h
      simp [mapGet, Ne.symm h.1, ih h.2]

theorem mapGet_mapDelete_self {α β : Type} [DecidableEq α] (m : List (α × β)) (k : α)
    (h : (m.map Prod.fst).Nodup) : mapGet (mapDelete m k) k = none := by
  induction m with
  | nil => rfl
  | cons hd tl ih =>
      obtain ⟨a, b⟩ := hd
      simp only [List.map_cons, List.nodup_cons] at h
      by_cases ha : a = k
      · subst ha
        simpa [mapDelete] using mapGet_eq_none_of_not_mem tl a h.1
      · simp [mapDelete, ha, mapGet, ih h.2]

theorem regInv_initialState : regInv initialState := by
  simp [regInv, initialState]

theorem register_socketsByUser (s : ServerState) (sid userId : String) (now : Nat)
    (h : userId ≠ "") :
    ((register s sid userId now).1).socketsByUser = mapSet s.socketsByUser userId sid := by
  simp [register, h]

theorem disconnect_socketsByUser (s : ServerState) (sid : String) (now : Nat) :
    ((disconnect s sid now).1).socketsByUser =
      match jsTruthy (mapGet s.userBySocket sid) with
      | some u => mapDelete s.socketsByUser u
      | none => s.socketsByUser := by
  cases hj : jsTruthy (mapGet s.userBySocket sid) with
  | none => simp [disconnect, hj]
  | some u =>
      simp only [disconnect, hj]
      split <;> rfl

theorem regInv_stepReg (s : ServerState) (e : RegEvent) (h : regInv s) :
    regInv (stepReg s e).1 := by
  cases e with
  | reg sid userId now =>
      by_cases hu : userId = ""
      · simpa [stepReg, register, hu] using h
      · unfold regInv
        rw [stepReg, register_socketsByUser s sid userId now hu]
        exact nodup_keys_mapSet _ _ _ h
  | disc sid now =>
      unfold regInv
      rw [stepReg, disconnect_socketsByUser]
      cases jsTruthy (mapGet s.userBySocket sid) with
      | none => exact h
      | some u => exact nodup_keys_mapDelete _ _ h

theorem length_eq_distinctBoundUsers (s : ServerState) (h : regInv s) :
    s.socketsByUser.length = distinctBoundUsers s := by
  unfold distinctBoundUsers
  rw [List.dedup_eq_self.mpr h, List.length_map]

theorem broadcastOnlineInfo_onlineCount (t : ServerState) (em : Emission)
    (hem : em ∈ broadcastOnlineInfo t) (n : Nat) (hp : em.payload = .onlineCount n) :
    n = t.socketsByUser.length := by
  simp only [broadcastOnlineInfo, List.mem_cons, List.mem_singleton] at hem
  rcases hem with h | h | h
  · subst h
    simp only at hp
    injection hp with h
    omega
  · subst h
    simp at hp
  · simp at h

theorem register_emissions (s : ServerState) (sid userId : String) (now : Nat)
    (h : userId ≠ "") :
    (register s sid userId now).2 = broadcastOnlineInfo (register s sid userId now).1 := by
  simp [register, h]

theorem disconnect_emissions (s : ServerState) (sid : String) (now : Nat) :
    (disconnect s sid now).2 =
      broadcastOnlineInfo (disconnect s sid now).1 ++
        [⟨.broadcastExcept sid, "userStatus", .userStatus "A user disconnected"⟩] :=
  rfl

theorem stepReg_onlineCount (s : ServerState) (e : RegEvent) (h : regInv s)
    (em : Emission) (hem : em ∈ (stepReg s e).2) (n : Nat)
    (hp : em.payload = .onlineCount n) : n = distinctBoundUsers (stepReg s e).1 := by
  have hpost : regInv (stepReg s e).1 := regInv_stepReg s e h
  cases e with
  | reg sid userId now =>
      by_cases hu : userId = ""
      · simp [stepReg, register, hu] at hem
      · rw [stepReg, register_emissions s sid userId now hu] at hem
        rw [← length_eq_distinctBoundUsers _ hpost]
        exact broadcastOnlineInfo_onlineCount _ em hem n hp
  | disc sid now =>
      rw [stepReg, disconnect_emissions, List.mem_append] at hem
      rcases hem with hem | hem
      · rw [← length_eq_distinctBoundUsers _ hpost]
        exact broadcastOnlineInfo_onlineCount _ em hem n hp
      · simp only [List.mem_singleton] at hem
        subst hem
        simp at hp

theorem runTrace_onlineCount (l : List RegEvent) :
    ∀ s : ServerState, regInv s → ∀ p ∈ runTrace s l, regInv p.1 ∧
      ∀ em ∈ p.2, ∀ n : Nat, em.payload = .onlineCount n → n = distinctBoundUsers p.1 := by
  induction l with
  | nil =>
      intro s _ p hp
      simp [runTrace] at hp
  | cons e rest ih =>
      intro s hs p hp
      simp only [runTrace, List.mem_cons] at hp
      rcases hp with rfl | hp
      · exact ⟨regInv_stepReg s e hs, fun em hem n hp => stepReg_onlineCount s e hs em hem n hp⟩
      · exact ih (stepReg s e).1 (regInv_stepReg s e hs) p hp

theorem register_userBySocket (s : ServerState) (sid userId : String) (now : Nat)
    (h : userId ≠ "") :
    ((register s sid userId now).1).userBySocket = mapSet s.userBySocket sid userId := by
  simp [register, h]

/-- C1: for all sequences of register and disconnect (unbind) calls starting
from the initial state, every broadcast online count equals the number of
distinct userIds currently bound in the registry — as a `Nat` it is never
negative, and a duplicate registration of the same userId is never
double-counted because the count is the number of distinct bound keys. -/
theorem c1_online_count_eq_distinct_bound (l : List RegEvent)
    (p : ServerState × List Emission) (hp : p ∈ runTrace initialState l)
    (em : Emission) (hem : em ∈ p.2) (n : Nat)
    (hn : em.payload = .onlineCount n) : n = distinctBoundUsers p.1 :=
  (runTrace_onlineCount l initialState regInv_initialState p hp).2 em hem n hn

/-- A two-event trace in which the same userId registers from two sockets. -/
def c1TraceInput : List RegEvent :=
  [.reg "s1" "u1" 0, .reg "s2" "u1" 1]

/-- The post-state and emissions of the second step of `c1TraceInput`. -/
def c1TracePair : ServerState × List Emission :=
  (⟨[("u1", "s2")], [("s1", "u1"), ("s2", "u1")], [], [], [("u1", 1)]⟩,
   [⟨.all, "updateOnlineUsers", .onlineCount 1⟩,
    ⟨.all, "lastSeen", .lastSeenMap [("u1", 1)]⟩])

theorem c1_online_count_eq_distinct_bound_witness :
    c1TracePair ∈ runTrace initialState c1TraceInput ∧
    ⟨Dest.all, "updateOnlineUsers", Payload.onlineCount 1⟩ ∈ c1TracePair.2 ∧
    (1 : Nat) = distinctBoundUsers c1TracePair.1 :=
  ⟨by decide, by decide,
   c1_online_count_eq_distinct_bound c1TraceInput c1TracePair (by decide)
     ⟨Dest.all, "updateOnlineUsers", Payload.onlineCount 1⟩ (by decide) 1 (by decide)⟩

/-- C2 counterexample: after `register(U1, C)` followed by `register(U2, C)`
on the same socket `C`, `lookup(U1)` still returns `C` — the register handler
never removes the stale forward binding, while the claim says `U1` is no
longer bound. -/
theorem c2_stale_binding_counterexample :
    mapGet ((register (register initialState "C" "U1" 0).1 "C" "U2" 1).1).socketsByUser "U1"
      = some "C" := by
  decide

/-- C2 amended: `register(U2, C)` after `register(U1, C)` overwrites only the
reverse binding (`userBySocket.get(C) = U2`); the prior forward binding
survives, so `lookup(U1)` still returns `C`. -/
theorem c2_register_keeps_stale_forward_binding (s : ServerState) (u1 u2 c : String)
    (n1 n2 : Nat) (h1 : u1 ≠ "") (h2 : u2 ≠ "") (hne : u1 ≠ u2) :
    mapGet ((register (register s c u1 n1).1 c u2 n2).1).socketsByUser u1 = some c ∧
    mapGet ((register (register s c u1 n1).1 c u2 n2).1).userBySocket c = some u2 := by
  constructor
  · rw [register_socketsByUser _ _ _ _ h2, register_socketsByUser _ _ _ _ h1,
      mapGet_mapSet_ne _ _ _ _ hne]
    exact mapGet_mapSet_self _ _ _
  · rw [register_userBySocket _ _ _ _ h2]
    exact mapGet_mapSet_self _ _ _

theorem c2_register_keeps_stale_forward_binding_witness :
    ("U1" : String) ≠ "" ∧ ("U2" : String) ≠ "" ∧ ("U1" : String) ≠ "U2" ∧
    (mapGet ((register (register initialState "C" "U1" 0).1 "C" "U2" 1).1).socketsByUser "U1"
        = some "C" ∧
     mapGet ((register (register initialState "C" "U1" 0).1 "C" "U2" 1).1).userBySocket "C"
        = some "U2") :=
  ⟨by decide, by decide, by decide,
   c2_register_keeps_stale_forward_binding initialState "U1" "U2" "C" 0 1
     (by decide) (by decide) (by decide)⟩

/-- C6: last registration wins — after `register(U, C1)` then
`register(U, C2)`, `lookup(U)` returns `C2` (and only `C2`, since `mapGet`
is a function), so `C1` is no longer reachable under `U`. -/
theorem c6_last_registration_wins (s : ServerState) (u c1 c2 : String)
    (n1 n2 : Nat) (hu : u ≠ "") :
    mapGet ((register (register s c1 u n1).1 c2 u n2).1).socketsByUser u = some c2 := by
  rw [register_socketsByUser _ _ _ _ hu]
  exact mapGet_mapSet_self _ _ _

theorem c6_last_registration_wins_witness :
    ("u" : String) ≠ "" ∧
    mapGet ((register (register initialState "c1" "u" 0).1 "c2" "u" 1).1).socketsByUser "u"
      = some "c2" :=
  ⟨by decide, c6_last_registration_wins initialState "u" "c1" "c2" 0 1 (by decide)⟩

theorem disconnect_typingUsers (s : ServerState) (sid : String) (now : Nat) (u : String)
    (hj : jsTruthy (mapGet s.userBySocket sid) = some u) :
    ((disconnect s sid now).1).typingUsers =
      if u ∈ s.typingUsers then s.typingUsers.erase u else s.typingUsers := by
  simp only [disconnect, hj]
  split <;> rfl

/-- C3 counterexample: three sockets register as `U1`, `U2`, `U3`, `U2` sends
`typing(U2)` and then disconnects without `stop-typing`.  The typing set is
cleared, but the disconnect step emits no `typing` event at all, while the
claim says the remaining connections receive the refreshed (empty) typing
set. -/
def c3State : ServerState :=
  (typing (register (register (register initialState "c1" "U1" 0).1
      "c2" "U2" 1).1 "c3" "U3" 2).1 "U2").1

theorem c3_no_typing_broadcast_counterexample :
    ((disconnect c3State "c2" 3).1).typingUsers = [] ∧
    ((disconnect c3State "c2" 3).2).filter (fun em => em.event == "typing") = [] := by
  decide

/-- C3 amended: when a connection whose userId `U` is in the typing set
disconnects without sending stop-typing, `U` is removed from the typing set
and from the registry, but no broadcast of the refreshed typing set is
emitted during disconnect reconciliation — the disconnect step only emits
online info and a generic user-status notice, so remaining clients keep
their stale typing view until the next typing mutation. -/
theorem c3_disconnect_clears_typing_without_broadcast (s : ServerState)
    (sid u : String) (now : Nat) (hreg : regInv s) (htyp : s.typingUsers.Nodup)
    (hu : mapGet s.userBySocket sid = some u) (hne : u ≠ "") :
    u ∉ ((disconnect s sid now).1).typingUsers ∧
    mapGet ((disconnect s sid now).1).socketsByUser u = none ∧
    ∀ em ∈ (disconnect s sid now).2, em.event ≠ "typing" := by
  have hj : jsTruthy (mapGet s.userBySocket sid) = some u := by
    simp [jsTruthy, hu, hne]
  refine ⟨?_, ?_, ?_⟩
  · rw [disconnect_typingUsers s sid now u hj]
    by_cases hmem : u ∈ s.typingUsers
    · rw [if_pos hmem]
      intro hcontra
      exact ((htyp.mem_erase_iff).mp hcontra).1 rfl
    · rw [if_neg hmem]
      exact hmem
  · rw [disconnect_socketsByUser, hj]
    exact mapGet_mapDelete_self _ _ hreg
  · intro em hem
    rw [disconnect_emissions, List.mem_append] at hem
    rcases hem with hem | hem
    · simp only [broadcastOnlineInfo, List.mem_cons, List.mem_singleton] at hem
      rcases hem with rfl | rfl | h
      · simp
      · simp
      · simp at h
    · simp only [List.mem_singleton] at hem
      subst hem
      simp

theorem c3_disconnect_clears_typing_without_broadcast_witness :
    regInv c3State ∧ c3State.typingUsers.Nodup ∧
    mapGet c3State.userBySocket "c2" = some "U2" ∧ ("U2" : String) ≠ "" ∧
    ("U2" ∉ ((disconnect c3State "c2" 3).1).typingUsers ∧
     mapGet ((disconnect c3State "c2" 3).1).socketsByUser "U2" = none ∧
     ∀ em ∈ (disconnect c3State "c2" 3).2, em.event ≠ "typing") :=
  ⟨by unfold regInv; decide, by decide, by decide, by decide,
   c3_disconnect_clears_typing_without_broadcast c3State "c2" "U2" 3
     (by unfold regInv; decide) (by decide) (by decide) (by decide)⟩

/-- C4 counterexample: with no user registered, `accept-call`,
`ice-candidate` and `end-call` to an absent target emit nothing at all —
while the claim says each of the four kinds sends the sender an unreachable
notice on lookup miss (only `call-user` does). -/
theorem c4_uniform_routing_counterexample :
    (acceptCall initialState "c1" "U" "V" "ans").2 = [] ∧
    (iceCandidate initialState "c1" "U" "cand").2 = [] ∧
    (endCall initialState "c1" "U" "V").2 = [] ∧
    (callUser initialState "c1" "U" "V" "off").2 =
      [⟨.toSocket "c1", "user-offline", .userOffline "U"⟩] :=
  ⟨rfl, rfl, rfl, rfl⟩

/-- C4 amended: all four signal kinds forward their payload to the one
target socket when `lookup(to)` is present, but on lookup miss only the
offer kind (`call-user`) replies to the sender with the unreachable notice;
`accept-call`, `ice-candidate` and `end-call` are silently dropped. -/
theorem c4_only_offer_gets_unreachable_notice (s : ServerState)
    (sid toU fro offer answer candidate : String) :
    (mapGet s.socketsByUser toU = none →
      (callUser s sid toU fro offer).2 =
        [⟨.toSocket sid, "user-offline", .userOffline toU⟩] ∧
      (acceptCall s sid toU fro answer).2 = [] ∧
      (iceCandidate s sid toU candidate).2 = [] ∧
      (endCall s sid toU fro).2 = []) ∧
    (∀ c, mapGet s.socketsByUser toU = some c →
      (callUser s sid toU fro offer).2 =
        [⟨.toSocket c, "incoming-call", .incomingCall fro offer⟩] ∧
      (acceptCall s sid toU fro answer).2 =
        [⟨.toSocket c, "call-accepted", .callAccepted fro answer⟩] ∧
      (iceCandidate s sid toU candidate).2 =
        [⟨.toSocket c, "ice-candidate",
          .iceCand candidate (jsTruthy (mapGet s.userBySocket sid))⟩] ∧
      (endCall s sid toU fro).2 = [⟨.toSocket c, "call-ended", .callEnded fro⟩]) := by
  constructor
  · intro h
    refine ⟨?_, ?_, ?_, ?_⟩ <;> simp [callUser, acceptCall, iceCandidate, endCall, h]
  · intro c h
    refine ⟨?_, ?_, ?_, ?_⟩ <;> simp [callUser, acceptCall, iceCandidate, endCall, h]

theorem c4_only_offer_gets_unreachable_notice_witness :
    mapGet initialState.socketsByUser "U" = none ∧
    ((callUser initialState "c1" "U" "V" "off").2 =
        [⟨.toSocket "c1", "user-offline", .userOffline "U"⟩] ∧
     (acceptCall initialState "c1" "U" "V" "ans").2 = [] ∧
     (iceCandidate initialState "c1" "U" "cand").2 = [] ∧
     (endCall initialState "c1" "U" "V").2 = []) :=
  ⟨rfl, (c4_only_offer_gets_unreachable_notice initialState "c1" "U" "V" "off"
     "ans" "cand").1 rfl⟩

/-- C5 counterexample: when the store save fails, the `sendMessage` handler
emits nothing — no failure signal reaches the originating sender, while the
claim says one is delivered to the sender. -/
def c5Msg : MsgIn := ⟨"hi", "alice", none⟩

theorem c5_failure_notice_counterexample :
    (sendMessage initialState c5Msg (fun _ => none)).2 = [] :=
  rfl

/-- C5 amended: chat send is synchronous — the message is persisted first
and broadcast only on successful persistence, carrying the store-assigned
form; on persistence failure nothing is broadcast and the failure is only
logged, with no failure signal to the sender (or anyone else). -/
theorem c5_persist_then_broadcast (s : ServerState) (msg : MsgIn)
    (save : MsgIn → Option SavedMessage) :
    (∀ saved, save msg = some saved →
      (sendMessage s msg save).2 = [⟨.all, "message", .chatMessage saved⟩]) ∧
    (save msg = none → (sendMessage s msg save).2 = []) := by
  constructor
  · intro saved h
    simp [sendMessage, h]
  · intro h
    simp [sendMessage, h]

/-- A store-confirmed form of `c5Msg` with an assigned id. -/
def c5Saved : SavedMessage := ⟨"id1", "hi", "alice", none, 5⟩

theorem c5_persist_then_broadcast_witness :
    (sendMessage initialState c5Msg (fun _ => some c5Saved)).2 =
      [⟨.all, "message", .chatMessage c5Saved⟩] :=
  (c5_persist_then_broadcast initialState c5Msg (fun _ => some c5Saved)).1 c5Saved rfl

/-- C7: routing `call-offer(to=U, from=V, offer=X)` when `U` is not
registered delivers exactly one `user-offline` notice carrying `U` to the
sending socket and nothing to any other socket; when `U` is registered to
socket `C` it delivers exactly one `incoming-call` to `C` and nothing
elsewhere. -/
theorem c7_offer_routing_delivery (s : ServerState) (sid toU fro offer : String) :
    (mapGet s.socketsByUser toU = none →
      (callUser s sid toU fro offer).2.filter (fun em => em.reaches sid) =
        [⟨.toSocket sid, "user-offline", .userOffline toU⟩] ∧
      ∀ other : String, other ≠ sid →
        (callUser s sid toU fro offer).2.filter (fun em => em.reaches other) = []) ∧
    (∀ c, mapGet s.socketsByUser toU = some c →
      (callUser s sid toU fro offer).2.filter (fun em => em.reaches c) =
        [⟨.toSocket c, "incoming-call", .incomingCall fro offer⟩] ∧
      ∀ other : String, other ≠ c →
        (callUser s sid toU fro offer).2.filter (fun em => em.reaches other) = []) := by
  constructor
  · intro h
    constructor
    · simp [callUser, h, Emission.reaches]
    · intro other hother
      simp [callUser, h, Emission.reaches, Ne.symm hother]
  · intro c h
    constructor
    · simp [callUser, h, Emission.reaches]
    · intro other hother
      simp [callUser, h, Emission.reaches, Ne.symm hother]

/-- A state with one socket `c2` registered as user `U`. -/
def c7State : ServerState := (register initialState "c2" "U" 0).1

theorem c7_offer_routing_delivery_witness :
    mapGet c7State.socketsByUser "U" = some "c2" ∧
    ((callUser c7State "c1" "U" "V" "off").2.filter (fun em => em.reaches "c2") =
       [⟨.toSocket "c2", "incoming-call", .incomingCall "V" "off"⟩] ∧
     ∀ other : String, other ≠ "c2" →
       (callUser c7State "c1" "U" "V" "off").2.filter (fun em => em.reaches other) = []) :=
  ⟨by decide, (c7_offer_routing_delivery c7State "c1" "U" "V" "off").2 "c2" (by decide)⟩

theorem removeById_eq_self (store : List SavedMessage) (id : String)
    (h : ∀ m ∈ store, m.id ≠ id) : removeById store id = store := by
  induction store with
  | nil => rfl
  | cons m rest ih =>
      rw [removeById, if_neg (h m (List.mem_cons_self m rest)),
        ih (fun x hx => h x (List.mem_cons_of_mem m hx))]

/-- C8: the delete route removes the message from the store
(`findByIdAndDelete`) and then broadcasts exactly one `deleteMessage` notice
carrying the messageId — unconditionally, so also when no stored message has
that id (idempotent delete). -/
theorem c8_delete_always_broadcasts (store : List SavedMessage) (id : String) :
    (deleteMessageRoute store id).2.1 = [⟨.all, "deleteMessage", .messageDeleted id⟩] ∧
    (deleteMessageRoute store id).1 = removeById store id ∧
    ((∀ m ∈ store, m.id ≠ id) → (deleteMessageRoute store id).1 = store) := by
  refine ⟨rfl, rfl, fun h => removeById_eq_self store id h⟩

/-- A store holding one message whose id differs from the deleted one. -/
def c8Store : List SavedMessage := [⟨"a", "t", "s", none, 0⟩]

theorem c8_delete_always_broadcasts_witness :
    (∀ m ∈ c8Store, m.id ≠ "x") ∧
    (deleteMessageRoute c8Store "x").2.1 =
      [⟨.all, "deleteMessage", .messageDeleted "x"⟩] ∧
    (deleteMessageRoute c8Store "x").1 = c8Store :=
  ⟨by decide, (c8_delete_always_broadcasts c8Store "x").1,
   (c8_delete_always_broadcasts c8Store "x").2.2 (by decide)⟩

theorem messageReaction_get (s : ServerState) (mid emoji : String) :
    mapGet ((messageReaction s mid emoji).1).messageReactions mid
      = some ((mapGet s.messageReactions mid).getD [] ++ [emoji]) := by
  simp only [messageReaction]
  exact mapGet_mapSet_self _ _ _

/-- C9: `messageReaction(M, e)` appends `e` to the ordered reaction sequence
for `M` (creating it if absent) and broadcasts the single added reaction
paired with `M`; two identical calls append two entries and produce two
broadcast events — no deduplication. -/
theorem c9_reaction_append_no_dedup (s : ServerState) (mid emoji : String) :
    mapGet ((messageReaction (messageReaction s mid emoji).1 mid emoji).1).messageReactions mid
      = some ((mapGet s.messageReactions mid).getD [] ++ [emoji, emoji]) ∧
    (messageReaction s mid emoji).2 =
      [⟨.all, "messageReaction", .reactionAdded mid emoji⟩] ∧
    (messageReaction (messageReaction s mid emoji).1 mid emoji).2 =
      [⟨.all, "messageReaction", .reactionAdded mid emoji⟩] := by
  refine ⟨?_, rfl, rfl⟩
  rw [messageReaction_get, messageReaction_get]
  simp

/-- C10: a forwarded `ice-candidate` carries a `from` field derived from the
registry — equal to the userId registered for the sending socket, or `null`
when that socket has not registered; the inbound payload itself carries only
`to` and `candidate` (see `iceCandidate`, which takes no from argument). -/
theorem c10_ice_from_derived_from_registry (s : ServerState)
    (sid toU candidate c : String) (h : mapGet s.socketsByUser toU = some c) :
    (iceCandidate s sid toU candidate).2 =
      [⟨.toSocket c, "ice-candidate",
        .iceCand candidate (jsTruthy (mapGet s.userBySocket sid))⟩] ∧
    (mapGet s.userBySocket sid = none → jsTruthy (mapGet s.userBySocket sid) = none) ∧
    (∀ u, mapGet s.userBySocket sid = some u → u ≠ "" →
      jsTruthy (mapGet s.userBySocket sid) = some u) := by
  refine ⟨by simp [iceCandidate, h], ?_, ?_⟩
  · intro hn
    simp [jsTruthy, hn]
  · intro u hu hne
    simp [jsTruthy, hu, hne]

/-- A state with socket `c1` registered as `V` and socket `c2` as `U`. -/
def c10State : ServerState :=
  (register (register initialState "c1" "V" 0).1 "c2" "U" 1).1

theorem c10_ice_from_derived_from_registry_witness :
    mapGet c10State.socketsByUser "U" = some "c2" ∧
    ((iceCandidate c10State "c1" "U" "cand").2 =
       [⟨.toSocket "c2", "ice-candidate",
         .iceCand "cand" (jsTruthy (mapGet c10State.userBySocket "c1"))⟩] ∧
     (mapGet c10State.userBySocket "c1" = none →
       jsTruthy (mapGet c10State.userBySocket "c1") = none) ∧
     (∀ u, mapGet c10State.userBySocket "c1" = some u → u ≠ "" →
       jsTruthy (mapGet c10State.userBySocket "c1") = some u)) :=
  ⟨by decide, c10_ice_from_derived_from_registry c10State "c1" "U" "cand" "c2" (by decide)⟩
